import Mathlib

/-!
Verification of the aggregation and categorization pipeline of the Beijing
air-quality dashboard (`src/dashboard/dashboard.py`).

The dashboard is a pandas/streamlit script.  We shallowly embed the data
model and the computations the dashboard performs on its dataframe:

* a dataframe row becomes a `Row` (the calendar fields `year`, `month`,
  `day`, `hour`, `day_of_week` that the source derives from the timestamp
  index are carried as fields, since the claims never exercise timestamp
  decoding itself);
* the nullable float column `PM2.5` becomes `Option ℚ` — `none` plays the
  role of pandas' `NaN` (missing), and rationals stand for the float
  values, so means and threshold comparisons are exact;
* `df.groupby(k)['PM2.5'].mean()` becomes `groupbyMean`: pandas produces
  one group per key value occurring in the frame, with keys sorted
  ascending, and the group mean skips missing values (`skipna`), yielding
  `NaN` (here `none`) when every value of the group is missing;
* `.reindex(labels)` becomes a map over the label list looking each label
  up in the grouped result, missing labels yielding `none` (pandas `NaN`);
* `.value_counts()` followed by `.reindex` becomes a count per fixed
  label, with a zero count rendered as `none` (`value_counts` only lists
  observed values, so `reindex` fills the rest with `NaN`);
* `.sort_values(ascending=False)` on the station means calls the default
  sort kind `'quicksort'` (numpy introsort), which is documented as not
  stable: the relative order of entries with exactly equal means is
  unspecified.  We therefore model it as a relation, `IsSortValuesDesc`:
  an admissible result is any mean-descending arrangement of the
  non-missing entries — ties in an arbitrary order — followed by the
  missing-mean entries in their original order (pandas' `nargsort` only
  quicksorts the non-missing block and then appends the missing indices
  in index order, so that part is deterministic, `na_position='last'`).
-/

namespace Dashboard

/-- One row of the dashboard dataframe: a station identifier, the calendar
fields derived from the timestamp index (`df.index.year`, `.month`,
`.date.day`, `.hour`, `.dayofweek`), and the nullable `PM2.5` value. -/
structure Row where
  station : String
  year : Int
  month : Nat
  day : Nat
  hour : Nat
  day_of_week : Nat
  pm25 : Option ℚ
deriving DecidableEq, Repr

/-- `get_season` from the source: `if month in [12, 1, 2]: return 'Winter'`
etc., with `'Autumn'` as the final `else`. -/
def get_season (month : Nat) : String :=
  if month = 12 ∨ month = 1 ∨ month = 2 then "Winter"
  else if month = 3 ∨ month = 4 ∨ month = 5 then "Spring"
  else if month = 6 ∨ month = 7 ∨ month = 8 then "Summer"
  else "Autumn"

/-- `categorize_pm25` from the source.  The argument is the nullable daily
mean; a missing value (`NaN` in pandas) fails every `<=` comparison, so the
chain of `if pm25 <= 15 / 25 / 150` falls through to the `else` branch and
returns `'Very Unhealthy'`. -/
def categorize_pm25 (pm25 : Option ℚ) : String :=
  match pm25 with
  | some v =>
    if v ≤ 15 then "Good"
    else if v ≤ 25 then "Moderate"
    else if v ≤ 150 then "Unhealthy"
    else "Very Unhealthy"
  | none => "Very Unhealthy"

/-- The skipna mean pandas uses for a group: the arithmetic mean of the
non-missing values, `NaN` (`none`) when there are none. -/
def meanOpt (vs : List ℚ) : Option ℚ :=
  if vs.isEmpty then none else some (vs.sum / vs.length)

/-- The order Python (and hence pandas' key sort) uses on station and
season identifiers: lexicographic comparison of the code-point
sequences. -/
def strLe (a b : String) : Prop := a.data ≤ b.data

/-- Strict version of `strLe`. -/
def strLt (a b : String) : Prop := a.data < b.data

instance : DecidableRel strLe := fun a b =>
  inferInstanceAs (Decidable (a.data ≤ b.data))

instance : DecidableRel strLt := fun a b =>
  inferInstanceAs (Decidable (a.data < b.data))

instance : IsTotal String strLe := ⟨fun a b => le_total a.data b.data⟩

instance : IsTrans String strLe := ⟨fun _ _ _ h1 h2 => le_trans h1 h2⟩

/-- `df.groupby(key)['PM2.5'].mean()`: one entry per key value occurring in
`rows`, keys sorted ascending by `le`, each entry carrying the skipna mean
of the group's `PM2.5` values. -/
def groupbyMean {K : Type} [DecidableEq K] (le : K → K → Prop) [DecidableRel le]
    (key : Row → K) (rows : List Row) : List (K × Option ℚ) :=
  (List.insertionSort le ((rows.map key).dedup)).map fun k =>
    (k, meanOpt ((rows.filter fun r => key r = k).filterMap Row.pm25))

/-- `pm25_yearly = df.groupby('year')['PM2.5'].mean()`. -/
def pm25_yearly (rows : List Row) : List (Int × Option ℚ) :=
  groupbyMean (· ≤ ·) Row.year rows

/-- `pm25_hourly = df.groupby('hour')['PM2.5'].mean()`. -/
def pm25_hourly (rows : List Row) : List (Nat × Option ℚ) :=
  groupbyMean (· ≤ ·) Row.hour rows

/-- `pm25_daily = df.groupby('day_of_week')['PM2.5'].mean()`. -/
def pm25_daily (rows : List Row) : List (Nat × Option ℚ) :=
  groupbyMean (· ≤ ·) Row.day_of_week rows

/-- The `season` column: `df['month'].apply(get_season)`. -/
def seasonOf (r : Row) : String := get_season r.month

/-- The fixed display order the source reindexes the seasonal means to. -/
def seasonOrder : List String := ["Spring", "Summer", "Autumn", "Winter"]

/-- `pm25_seasonal = df.groupby('season')['PM2.5'].mean().reindex([...])`:
for each label of the fixed order, the grouped mean when the season occurs
in the data, `none` (pandas `NaN`) when it does not. -/
def pm25_seasonal (rows : List Row) : List (String × Option ℚ) :=
  seasonOrder.map fun s => (s, ((groupbyMean strLe seasonOf rows).lookup s).join)

/-- `df.groupby('station')['PM2.5'].mean()` — the per-station means the
ranking is computed from; entries are station-name ascending. -/
def station_means (rows : List Row) : List (String × Option ℚ) :=
  groupbyMean strLe Row.station rows

/-- The one comparison `sort_values(ascending=False)` guarantees between
entries that carry a mean: means weakly descending.  It says nothing about
the order of exact ties. -/
def meanDescLe (a b : String × Option ℚ) : Prop :=
  b.2.getD 0 ≤ a.2.getD 0

/-- The admissible results of `sort_values(ascending=False)` on a series
of nullable means: some mean-descending arrangement of the non-missing
entries — entries with exactly equal means in an unspecified relative
order, because the default sort kind `'quicksort'` is not stable —
followed by the missing-mean entries in their original order. -/
def IsSortValuesDesc (l result : List (String × Option ℚ)) : Prop :=
  ∃ t, t.Perm (l.filter fun x => x.2.isSome) ∧ t.Pairwise meanDescLe ∧
    result = t ++ l.filter fun x => x.2.isNone

/-- The admissible results of
`top5 = df.groupby('station')['PM2.5'].mean().sort_values(ascending=False).head(5)`. -/
def IsTop5 (rows : List Row) (result : List (String × Option ℚ)) : Prop :=
  ∃ s, IsSortValuesDesc (station_means rows) s ∧ result = s.take 5

/-- The `['station', 'date']` grouping key: `df['date'] = df.index.date`
paired with the station, a calendar date being (year, month, day). -/
def stationDate (r : Row) : String × Int × Nat × Nat :=
  (r.station, r.year, r.month, r.day)

/-- Lexicographic order on (station, date) keys — pandas sorts the
groupby keys ascending. -/
def sdBefore (a b : String × Int × Nat × Nat) : Prop :=
  strLt a.1 b.1 ∨ (a.1 = b.1 ∧ (a.2.1 < b.2.1 ∨ (a.2.1 = b.2.1 ∧
    (a.2.2.1 < b.2.2.1 ∨ (a.2.2.1 = b.2.2.1 ∧ a.2.2.2 ≤ b.2.2.2)))))

instance : DecidableRel sdBefore := fun _ _ =>
  inferInstanceAs (Decidable (_ ∨ _ ∧ (_ ∨ _ ∧ (_ ∨ _ ∧ _))))

/-- `daily_data = df.groupby(['station', 'date'])['PM2.5'].mean()`: one
entry per distinct (station, date) pair occurring in `rows`, keys sorted
ascending, with the skipna mean of the pair's `PM2.5` values. -/
def daily_data (rows : List Row) : List ((String × Int × Nat × Nat) × Option ℚ) :=
  (List.insertionSort sdBefore ((rows.map stationDate).dedup)).map fun k =>
    (k, meanOpt ((rows.filter fun r => stationDate r = k).filterMap Row.pm25))

/-- The `category` column of `daily_data`:
`daily_data['PM2.5'].apply(categorize_pm25)`. -/
def daily_categories (rows : List Row) : List String :=
  (daily_data rows).map fun e => categorize_pm25 e.2

/-- The fixed label order the source reindexes the distribution to. -/
def categoryOrder : List String := ["Good", "Moderate", "Unhealthy", "Very Unhealthy"]

/-- `dist = daily_data['category'].value_counts().reindex([...])`:
`value_counts` lists only observed categories, so after `reindex` a
category with no daily mean carries `NaN` (`none`), not zero. -/
def dist (rows : List Row) : List (String × Option Nat) :=
  categoryOrder.map fun c =>
    (c, if (daily_categories rows).count c = 0 then none
        else some ((daily_categories rows).count c))

/-- Total of the distribution's counts, a missing entry contributing 0. -/
def distSum (rows : List Row) : Nat :=
  ((dist rows).map fun e => e.2.getD 0).sum

/-- The mean a grouped series reports for a key: `none` both when the key
is absent and when its mean is `NaN`. -/
def lookupMean {K : Type} [BEq K] (g : List (K × Option ℚ)) (k : K) : Option ℚ :=
  (g.lookup k).join

/-- C1: for every PM2.5 value v, `categorize_pm25` returns Good iff v ≤ 15,
Moderate iff 15 < v ≤ 25, Unhealthy iff 25 < v ≤ 150, and Very Unhealthy
iff v > 150; in particular the boundary values 15, 25 and 150 map to the
lower category. -/
theorem C1_categorize_pm25_spec (v : ℚ) :
    (categorize_pm25 (some v) = "Good" ↔ v ≤ 15) ∧
    (categorize_pm25 (some v) = "Moderate" ↔ 15 < v ∧ v ≤ 25) ∧
    (categorize_pm25 (some v) = "Unhealthy" ↔ 25 < v ∧ v ≤ 150) ∧
    (categorize_pm25 (some v) = "Very Unhealthy" ↔ 150 < v) ∧
    categorize_pm25 (some 15) = "Good" ∧
    categorize_pm25 (some 25) = "Moderate" ∧
    categorize_pm25 (some 150) = "Unhealthy" := by
  refine ⟨?_, ?_, ?_, ?_, ?_, ?_, ?_⟩ <;>
    simp only [categorize_pm25] <;> split_ifs <;> simp_all <;> try intros <;> linarith

/-- C8: for every month 1..12, `get_season` returns exactly one of the four
seasons according to the fixed partition {12,1,2} → Winter, {3,4,5} →
Spring, {6,7,8} → Summer, {9,10,11} → Autumn; the partition is exhaustive
and non-overlapping. -/
theorem C8_get_season_partition (m : Nat) (h1 : 1 ≤ m) (h2 : m ≤ 12) :
    (get_season m = "Winter" ↔ m = 12 ∨ m = 1 ∨ m = 2) ∧
    (get_season m = "Spring" ↔ m = 3 ∨ m = 4 ∨ m = 5) ∧
    (get_season m = "Summer" ↔ m = 6 ∨ m = 7 ∨ m = 8) ∧
    (get_season m = "Autumn" ↔ m = 9 ∨ m = 10 ∨ m = 11) := by
  interval_cases m <;> decide

/-- Witness for C8: month 4 is in range and maps to Spring. -/
theorem C8_get_season_partition_witness : get_season 4 = "Spring" :=
  (C8_get_season_partition 4 (by decide) (by decide)).2.1.mpr (Or.inr (Or.inl rfl))

/-- The keys of a grouped mean are the sorted deduplicated key values. -/
theorem groupbyMean_keys {K : Type} [DecidableEq K] (le : K → K → Prop) [DecidableRel le]
    (key : Row → K) (rows : List Row) :
    (groupbyMean le key rows).map Prod.fst =
      List.insertionSort le ((rows.map key).dedup) := by
  unfold groupbyMean
  rw [List.map_map]
  exact List.map_id' _

/-- Membership in a grouped mean: an entry exists exactly for keys that
occur in the rows, and carries the skipna mean of that group. -/
theorem mem_groupbyMean_iff {K : Type} [DecidableEq K] (le : K → K → Prop) [DecidableRel le]
    (key : Row → K) (rows : List Row) (k : K) (m : Option ℚ) :
    (k, m) ∈ groupbyMean le key rows ↔
      (∃ r ∈ rows, key r = k) ∧
        m = meanOpt ((rows.filter fun r => key r = k).filterMap Row.pm25) := by
  unfold groupbyMean
  rw [List.mem_map]
  constructor
  · rintro ⟨k', hk', hek⟩
    rw [Prod.mk.injEq] at hek
    obtain ⟨rfl, hm⟩ := hek
    have hmem := (List.mem_insertionSort le).mp hk'
    rw [List.mem_dedup, List.mem_map] at hmem
    exact ⟨hmem, hm.symm⟩
  · rintro ⟨⟨r, hr, hk⟩, hm⟩
    exact ⟨k, (List.mem_insertionSort le).mpr
      (List.mem_dedup.mpr (List.mem_map.mpr ⟨r, hr, hk⟩)), by rw [hm]⟩

/-- For a linear order key, the grouped keys are strictly increasing. -/
theorem groupbyMean_keys_pairwise_lt {K : Type} [LinearOrder K] (key : Row → K)
    (rows : List Row) :
    ((groupbyMean (· ≤ ·) key rows).map Prod.fst).Pairwise (· < ·) := by
  rw [groupbyMean_keys]
  have hs : List.Sorted (· ≤ ·) (List.insertionSort (· ≤ ·) ((rows.map key).dedup)) :=
    List.sorted_insertionSort _ _
  have hn : (List.insertionSort (α := K) (· ≤ ·) ((rows.map key).dedup)).Nodup :=
    ((List.perm_insertionSort _ _).nodup_iff).mpr (List.nodup_dedup _)
  exact hs.lt_of_le hn

/-- A key appears among a grouped mean's entries iff some row carries it. -/
theorem groupbyMean_key_occurs_iff {K : Type} [DecidableEq K] (le : K → K → Prop)
    [DecidableRel le] (key : Row → K) (rows : List Row) (k : K) :
    (∃ m, (k, m) ∈ groupbyMean le key rows) ↔ ∃ r ∈ rows, key r = k := by
  constructor
  · rintro ⟨m, hm⟩
    exact ((mem_groupbyMean_iff le key rows k m).mp hm).1
  · intro h
    exact ⟨_, (mem_groupbyMean_iff le key rows k _).mpr ⟨h, rfl⟩⟩

/-- C9: the outputs of the yearly, hourly and day-of-week mean reductions
are sorted strictly ascending by key (hence contain no duplicate keys), and
a key appears iff some row of the input carries it — keys with no rows are
omitted, not zero-filled. -/
theorem C9_mean_outputs_sorted_nodup (rows : List Row) :
    ((pm25_yearly rows).map Prod.fst).Pairwise (· < ·) ∧
    (∀ y : Int, (∃ m, (y, m) ∈ pm25_yearly rows) ↔ ∃ r ∈ rows, r.year = y) ∧
    ((pm25_hourly rows).map Prod.fst).Pairwise (· < ·) ∧
    (∀ h : Nat, (∃ m, (h, m) ∈ pm25_hourly rows) ↔ ∃ r ∈ rows, r.hour = h) ∧
    ((pm25_daily rows).map Prod.fst).Pairwise (· < ·) ∧
    (∀ d : Nat, (∃ m, (d, m) ∈ pm25_daily rows) ↔ ∃ r ∈ rows, r.day_of_week = d) :=
  ⟨groupbyMean_keys_pairwise_lt Row.year rows,
    fun y => groupbyMean_key_occurs_iff _ Row.year rows y,
    groupbyMean_keys_pairwise_lt Row.hour rows,
    fun h => groupbyMean_key_occurs_iff _ Row.hour rows h,
    groupbyMean_keys_pairwise_lt Row.day_of_week rows,
    fun d => groupbyMean_key_occurs_iff _ Row.day_of_week rows d⟩

/-- Looking a key up in an association list built by pairing each key with
a function of it. -/
theorem lookup_map_pair {K V : Type} [BEq K] [LawfulBEq K] (f : K → V) (ks : List K) (k : K) :
    List.lookup k (ks.map fun x => (x, f x)) = if k ∈ ks then some (f k) else none := by
  induction ks with
  | nil => simp
  | cons a l ih =>
    simp only [List.map_cons, List.lookup]
    by_cases h : k = a
    · subst h
      simp
    · have hb : (k == a) = false := beq_false_of_ne h
      simp [hb, ih, h]

/-- The mean a grouped series reports for any key is the skipna mean of
that key's group — `none` both for an absent key and for a group whose
values are all missing. -/
theorem lookupMean_groupbyMean {K : Type} [DecidableEq K] [BEq K] [LawfulBEq K]
    (le : K → K → Prop) [DecidableRel le] (key : Row → K) (rows : List Row) (k : K) :
    lookupMean (groupbyMean le key rows) k =
      meanOpt ((rows.filter fun r => key r = k).filterMap Row.pm25) := by
  unfold lookupMean groupbyMean
  rw [lookup_map_pair]
  by_cases h : k ∈ List.insertionSort le ((rows.map key).dedup)
  · rw [if_pos h]
    rfl
  · rw [if_neg h]
    have hnil : (rows.filter fun r => key r = k) = [] := by
      rw [List.filter_eq_nil_iff]
      intro r hr hk
      exact h ((List.mem_insertionSort le).mpr (List.mem_dedup.mpr
        (List.mem_map.mpr ⟨r, hr, of_decide_eq_true hk⟩)))
    rw [hnil]
    simp [meanOpt]

/-- A row with missing `PM2.5` contributes nothing to any group's value
list. -/
theorem filterMap_pm25_cons_missing (r : Row) (rows : List Row) {K : Type}
    [DecidableEq K] (key : Row → K) (k : K) (h : r.pm25 = none) :
    (((r :: rows).filter fun x => key x = k).filterMap Row.pm25) =
      ((rows.filter fun x => key x = k).filterMap Row.pm25) := by
  by_cases hk : key r = k
  · rw [List.filter_cons_of_pos (by simp [hk]), List.filterMap_cons_none h]
  · rw [List.filter_cons_of_neg (by simp [hk])]

/-- Dropping the missing-`PM2.5`-rows first does not change any group's
value list. -/
theorem filterMap_pm25_filter_isSome (rows : List Row) {K : Type}
    [DecidableEq K] (key : Row → K) (k : K) :
    ((((rows.filter fun x => x.pm25.isSome).filter fun x => key x = k).filterMap Row.pm25)) =
      ((rows.filter fun x => key x = k).filterMap Row.pm25) := by
  induction rows with
  | nil => rfl
  | cons a l ih =>
    by_cases hs : a.pm25.isSome
    · rw [List.filter_cons_of_pos (by simp [hs])]
      by_cases hk : key a = k
      · rw [List.filter_cons_of_pos (by simp [hk]), List.filter_cons_of_pos (by simp [hk]),
          List.filterMap_cons, List.filterMap_cons, ih]
      · rw [List.filter_cons_of_neg (by simp [hk]), List.filter_cons_of_neg (by simp [hk]), ih]
    · have hn : a.pm25 = none := Option.not_isSome_iff_eq_none.mp hs
      rw [List.filter_cons_of_neg (by simp [hs])]
      by_cases hk : key a = k
      · rw [List.filter_cons_of_pos (by simp [hk]), List.filterMap_cons_none hn, ih]
      · rw [List.filter_cons_of_neg (by simp [hk]), ih]

/-- C7: rows with missing PM2.5 are excluded from every mean computation
(by year, hour, day-of-week, season and station).  Inserting a
missing-value row changes no reported mean, computing over only the
non-missing rows reports the same means, and each reported mean is the
skipna mean of its group's non-missing values. -/
theorem C7_missing_excluded_from_means (rows : List Row) (r : Row) (hmiss : r.pm25 = none) :
    (∀ y, lookupMean (pm25_yearly (r :: rows)) y = lookupMean (pm25_yearly rows) y) ∧
    (∀ h, lookupMean (pm25_hourly (r :: rows)) h = lookupMean (pm25_hourly rows) h) ∧
    (∀ d, lookupMean (pm25_daily (r :: rows)) d = lookupMean (pm25_daily rows) d) ∧
    (∀ s, lookupMean (groupbyMean strLe seasonOf (r :: rows)) s =
      lookupMean (groupbyMean strLe seasonOf rows) s) ∧
    (∀ st, lookupMean (station_means (r :: rows)) st = lookupMean (station_means rows) st) ∧
    (∀ y, lookupMean (pm25_yearly (rows.filter fun x => x.pm25.isSome)) y =
      lookupMean (pm25_yearly rows) y) ∧
    (∀ h, lookupMean (pm25_hourly (rows.filter fun x => x.pm25.isSome)) h =
      lookupMean (pm25_hourly rows) h) ∧
    (∀ d, lookupMean (pm25_daily (rows.filter fun x => x.pm25.isSome)) d =
      lookupMean (pm25_daily rows) d) ∧
    (∀ s, lookupMean (groupbyMean strLe seasonOf (rows.filter fun x => x.pm25.isSome)) s =
      lookupMean (groupbyMean strLe seasonOf rows) s) ∧
    (∀ st, lookupMean (station_means (rows.filter fun x => x.pm25.isSome)) st =
      lookupMean (station_means rows) st) ∧
    (∀ y, lookupMean (pm25_yearly rows) y =
      meanOpt ((rows.filter fun x => x.year = y).filterMap Row.pm25)) := by
  unfold pm25_yearly pm25_hourly pm25_daily station_means
  refine ⟨fun y => ?_, fun h => ?_, fun d => ?_, fun s => ?_, fun st => ?_,
    fun y => ?_, fun h => ?_, fun d => ?_, fun s => ?_, fun st => ?_,
    fun y => lookupMean_groupbyMean _ Row.year rows y⟩ <;>
    rw [lookupMean_groupbyMean, lookupMean_groupbyMean] <;>
    first
      | rw [filterMap_pm25_cons_missing _ _ _ _ hmiss]
      | rw [filterMap_pm25_filter_isSome]

/-- Witness for C7: a missing-value row for station A in January 2014 does
not change the 2014 yearly mean of the empty table. -/
theorem C7_missing_excluded_from_means_witness :
    lookupMean (pm25_yearly [⟨"A", 2014, 1, 1, 0, 0, none⟩]) 2014 =
      lookupMean (pm25_yearly []) 2014 :=
  (C7_missing_excluded_from_means [] ⟨"A", 2014, 1, 1, 0, 0, none⟩ rfl).1 2014

/-- The reindexed seasonal series, written out entry by entry. -/
theorem pm25_seasonal_eq (rows : List Row) :
    pm25_seasonal rows =
      [("Spring", lookupMean (groupbyMean strLe seasonOf rows) "Spring"),
       ("Summer", lookupMean (groupbyMean strLe seasonOf rows) "Summer"),
       ("Autumn", lookupMean (groupbyMean strLe seasonOf rows) "Autumn"),
       ("Winter", lookupMean (groupbyMean strLe seasonOf rows) "Winter")] := rfl

/-- A season with no rows at all reports a missing mean. -/
theorem seasonal_mean_none {rows : List Row} {s : String}
    (habs : ¬ ∃ r ∈ rows, seasonOf r = s) :
    lookupMean (groupbyMean strLe seasonOf rows) s = none := by
  have hnil : (rows.filter fun r => seasonOf r = s) = [] := by
    rw [List.filter_eq_nil_iff]
    intro r hr hk
    exact habs ⟨r, hr, of_decide_eq_true hk⟩
  rw [lookupMean_groupbyMean, hnil]
  simp [meanOpt]

/-- A season with a non-missing observation reports a non-missing mean. -/
theorem seasonal_mean_isSome {rows : List Row} {s : String}
    (h : ∃ r ∈ rows, seasonOf r = s ∧ r.pm25.isSome) :
    (lookupMean (groupbyMean strLe seasonOf rows) s).isSome := by
  obtain ⟨r, hr, hs, hp⟩ := h
  rw [lookupMean_groupbyMean]
  obtain ⟨v, hv⟩ := Option.isSome_iff_exists.mp hp
  have hmem : v ∈ (rows.filter fun r => seasonOf r = s).filterMap Row.pm25 :=
    List.mem_filterMap.mpr ⟨r, List.mem_filter.mpr ⟨hr, by simp [hs]⟩, hv⟩
  have hne : ((rows.filter fun r => seasonOf r = s).filterMap Row.pm25) ≠ [] :=
    List.ne_nil_of_mem hmem
  simp [meanOpt, hne]

/-- C6: the seasonal means are reported in the fixed display order Spring,
Summer, Autumn, Winter; a season with no observations yields an entry whose
mean is missing (`none`), and an entry with an actual mean — zero included —
can only come from a season that occurs in the data, so the two cases are
distinguishable. -/
theorem C6_seasonal_fixed_order_and_missing (rows : List Row) :
    ((pm25_seasonal rows).map Prod.fst = ["Spring", "Summer", "Autumn", "Winter"]) ∧
    (∀ s ∈ seasonOrder, (¬ ∃ r ∈ rows, seasonOf r = s) →
      (s, (none : Option ℚ)) ∈ pm25_seasonal rows) ∧
    (∀ s q, (s, some q) ∈ pm25_seasonal rows →
      ∃ r ∈ rows, seasonOf r = s ∧ r.pm25.isSome) := by
  refine ⟨rfl, ?_, ?_⟩
  · intro s hs habs
    have hmem : (s, lookupMean (groupbyMean strLe seasonOf rows) s) ∈ pm25_seasonal rows :=
      List.mem_map.mpr ⟨s, hs, rfl⟩
    rwa [seasonal_mean_none habs] at hmem
  · intro s q hmem
    unfold pm25_seasonal at hmem
    simp only [List.mem_map] at hmem
    obtain ⟨s', _, he⟩ := hmem
    rw [Prod.mk.injEq] at he
    obtain ⟨rfl, hv⟩ := he
    have hv' : meanOpt ((rows.filter fun r => seasonOf r = s').filterMap Row.pm25) = some q := by
      rw [← lookupMean_groupbyMean strLe seasonOf rows s']
      exact hv
    unfold meanOpt at hv'
    by_cases hnil : ((rows.filter fun r => seasonOf r = s').filterMap Row.pm25).isEmpty
    · rw [if_pos hnil] at hv'
      exact absurd hv' (by simp)
    · have hne : ((rows.filter fun r => seasonOf r = s').filterMap Row.pm25) ≠ [] := by
        intro hh
        rw [hh] at hnil
        exact hnil rfl
      obtain ⟨v, hvmem⟩ := List.exists_mem_of_ne_nil _ hne
      obtain ⟨r, hrf, hrp⟩ := List.mem_filterMap.mp hvmem
      have hrr := List.mem_filter.mp hrf
      exact ⟨r, hrr.1, of_decide_eq_true hrr.2, by simp [hrp]⟩

/-- Witness for C6: on the empty table, Spring is absent and its entry
carries a missing mean. -/
theorem C6_seasonal_fixed_order_and_missing_witness :
    ("Spring", (none : Option ℚ)) ∈ pm25_seasonal [] :=
  (C6_seasonal_fixed_order_and_missing []).2.1 "Spring" (by simp [seasonOrder]) (by simp)

/-- A two-row table whose observations fall only in Winter (January) and
Summer (July). -/
def exC5 : List Row :=
  [⟨"A", 2014, 1, 1, 0, 0, some 10⟩, ⟨"A", 2014, 7, 1, 0, 0, some 20⟩]

/-- Counterexample to C5 as stated: with only Winter and Summer data the
seasonal series still contains entries for the absent seasons Spring and
Autumn — `reindex` keeps all four labels and fills the absent ones with a
missing mean — so it does not return entries for exactly Winter and
Summer. -/
theorem C5_counterexample :
    ("Spring", (none : Option ℚ)) ∈ pm25_seasonal exC5 ∧
    ("Autumn", (none : Option ℚ)) ∈ pm25_seasonal exC5 ∧
    (pm25_seasonal exC5).map Prod.fst = ["Spring", "Summer", "Autumn", "Winter"] := by
  refine ⟨?_, ?_, rfl⟩
  · have h := @seasonal_mean_none exC5 "Spring" (by decide)
    have hmem : ("Spring", lookupMean (groupbyMean strLe seasonOf exC5) "Spring") ∈
        pm25_seasonal exC5 := List.mem_map.mpr ⟨"Spring", by simp [seasonOrder], rfl⟩
    rwa [h] at hmem
  · have h := @seasonal_mean_none exC5 "Autumn" (by decide)
    have hmem : ("Autumn", lookupMean (groupbyMean strLe seasonOf exC5) "Autumn") ∈
        pm25_seasonal exC5 := List.mem_map.mpr ⟨"Autumn", by simp [seasonOrder], rfl⟩
    rwa [h] at hmem

/-- C5 as amended: with data only for Winter and Summer (each with at least
one non-missing value), the entries carrying an actual mean are exactly
Summer then Winter, in that order — Summer before Winter — while Spring and
Autumn still appear, but with missing means. -/
theorem C5_amended_seasonal_winter_summer (rows : List Row)
    (honly : ∀ r ∈ rows, seasonOf r = "Winter" ∨ seasonOf r = "Summer")
    (hw : ∃ r ∈ rows, seasonOf r = "Winter" ∧ r.pm25.isSome)
    (hs : ∃ r ∈ rows, seasonOf r = "Summer" ∧ r.pm25.isSome) :
    (((pm25_seasonal rows).filter fun e => e.2.isSome).map Prod.fst = ["Summer", "Winter"]) ∧
    ("Spring", (none : Option ℚ)) ∈ pm25_seasonal rows ∧
    ("Autumn", (none : Option ℚ)) ∈ pm25_seasonal rows := by
  have hsp : lookupMean (groupbyMean strLe seasonOf rows) "Spring" = none := by
    refine seasonal_mean_none ?_
    rintro ⟨r, hr, hk⟩
    rcases honly r hr with h | h <;> rw [h] at hk <;> exact absurd hk (by decide)
  have hau : lookupMean (groupbyMean strLe seasonOf rows) "Autumn" = none := by
    refine seasonal_mean_none ?_
    rintro ⟨r, hr, hk⟩
    rcases honly r hr with h | h <;> rw [h] at hk <;> exact absurd hk (by decide)
  have hsu := seasonal_mean_isSome hs
  have hwi := seasonal_mean_isSome hw
  obtain ⟨vs, hvs⟩ := Option.isSome_iff_exists.mp hsu
  obtain ⟨vw, hvw⟩ := Option.isSome_iff_exists.mp hwi
  rw [pm25_seasonal_eq, hsp, hau, hvs, hvw]
  simp

/-- Witness for the amended C5 at the concrete two-row Winter/Summer
table. -/
theorem C5_amended_seasonal_winter_summer_witness :
    ((pm25_seasonal exC5).filter fun e => e.2.isSome).map Prod.fst = ["Summer", "Winter"] :=
  (C5_amended_seasonal_winter_summer exC5 (by decide) (by decide) (by decide)).1

/-- Every value `categorize_pm25` can produce is one of the four fixed
category labels. -/
theorem categorize_mem_categoryOrder (p : Option ℚ) :
    categorize_pm25 p ∈ categoryOrder := by
  cases p with
  | none => simp [categorize_pm25, categoryOrder]
  | some v =>
    simp only [categorize_pm25, categoryOrder]
    split_ifs <;> simp

/-- Every daily category is one of the four fixed labels. -/
theorem daily_categories_mem (rows : List Row) :
    ∀ x ∈ daily_categories rows, x ∈ categoryOrder := by
  intro x hx
  obtain ⟨e, _, rfl⟩ := List.mem_map.mp hx
  exact categorize_mem_categoryOrder e.2

/-- For a list drawn from the four category labels, the four counts
exhaust the list. -/
theorem count_four_sum (l : List String) (h : ∀ x ∈ l, x ∈ categoryOrder) :
    l.count "Good" + l.count "Moderate" + l.count "Unhealthy" +
      l.count "Very Unhealthy" = l.length := by
  induction l with
  | nil => simp
  | cons a t ih =>
    have ha := h a (List.mem_cons_self a t)
    have ih' := ih fun x hx => h x (List.mem_cons_of_mem a hx)
    simp only [categoryOrder, List.mem_cons, List.not_mem_nil, or_false] at ha
    rcases ha with rfl | rfl | rfl | rfl <;>
      simp only [List.count_cons, List.length_cons] <;> simp <;> omega

/-- The distribution's counts total the number of daily (station, date)
groups. -/
theorem distSum_eq (rows : List Row) :
    distSum rows = (daily_categories rows).length := by
  unfold distSum dist
  have hgd : ∀ n : ℕ, (if n = 0 then (none : Option ℕ) else some n).getD 0 = n := by
    intro n
    split_ifs with h <;> simp [h]
  simp only [categoryOrder, List.map_cons, List.map_nil, List.sum_cons, List.sum_nil, hgd]
  have := count_four_sum (daily_categories rows) (daily_categories_mem rows)
  omega

/-- A one-row table whose single PM2.5 observation is missing. -/
def exMissing : List Row := [⟨"A", 2014, 1, 1, 0, 0, none⟩]

/-- Counterexample to C2 as stated: on a table whose only (station, date)
pair has no non-missing PM2.5 observation, the distribution's counts sum
to 1 (the all-missing day is categorized Very Unhealthy and counted), not
to 0, the number of distinct pairs with a non-missing observation. -/
theorem C2_counterexample :
    distSum exMissing = 1 ∧
    (((exMissing.filter fun r => r.pm25.isSome).map stationDate).toFinset).card = 0 := by
  constructor <;> decide

/-- C2 as amended: the distribution's counts sum to the number of distinct
(station, calendar-date) pairs occurring in the input at all — days whose
observations are all missing included, since their NaN daily mean falls
into the Very Unhealthy branch. -/
theorem C2_amended_dist_counts_sum (rows : List Row) :
    distSum rows = ((rows.map stationDate).toFinset).card := by
  rw [List.card_toFinset, distSum_eq]
  unfold daily_categories daily_data
  rw [List.length_map, List.length_map, List.length_insertionSort]

/-- Counterexample to C4 as stated: on a table whose single day maps to
Very Unhealthy, the Good category — to which no daily mean maps — carries a
missing entry (`value_counts` lists only observed categories and `reindex`
fills the rest with NaN), not an explicit zero count. -/
theorem C4_counterexample :
    ("Good", (none : Option ℕ)) ∈ dist exMissing ∧
    ("Good", some 0) ∉ dist exMissing := by
  constructor <;> decide

/-- C4 as amended: the distribution always carries the four labels Good,
Moderate, Unhealthy, Very Unhealthy in this fixed order, but a label to
which no daily mean maps carries a missing entry (NaN), not an explicit
zero; a numeric count is always positive and exact. -/
theorem C4_amended_dist_labels (rows : List Row) :
    ((dist rows).map Prod.fst = categoryOrder) ∧
    (∀ c n, (c, some n) ∈ dist rows → (daily_categories rows).count c = n ∧ 0 < n) ∧
    (∀ c, (c, (none : Option ℕ)) ∈ dist rows → (daily_categories rows).count c = 0) := by
  refine ⟨rfl, ?_, ?_⟩
  · intro c n hmem
    unfold dist at hmem
    simp only [List.mem_map] at hmem
    obtain ⟨c', _, he⟩ := hmem
    rw [Prod.mk.injEq] at he
    obtain ⟨rfl, hv⟩ := he
    by_cases h : (daily_categories rows).count c' = 0
    · rw [if_pos h] at hv
      exact absurd hv (by simp)
    · rw [if_neg h] at hv
      obtain rfl := Option.some.inj hv
      exact ⟨rfl, Nat.pos_of_ne_zero h⟩
  · intro c hmem
    unfold dist at hmem
    simp only [List.mem_map] at hmem
    obtain ⟨c', _, he⟩ := hmem
    rw [Prod.mk.injEq] at he
    obtain ⟨rfl, hv⟩ := he
    by_cases h : (daily_categories rows).count c' = 0
    · exact h
    · rw [if_neg h] at hv
      exact absurd hv (by simp)

/-- Witness for the amended C4 at the one-missing-row table: Very Unhealthy
carries the numeric count 1. -/
theorem C4_amended_dist_labels_witness :
    (daily_categories exMissing).count "Very Unhealthy" = 1 ∧ 0 < 1 :=
  (C4_amended_dist_labels exMissing).2.1 "Very Unhealthy" 1 (by decide)

/-- C10: a (station, date) group whose PM2.5 observations are all missing
still appears in `daily_data` with a missing daily mean, `categorize_pm25`
sends the missing mean to Very Unhealthy (every `<=` comparison against NaN
is false, so the `else` branch runs), and the day is therefore counted in
the distribution's Very Unhealthy entry. -/
theorem C10_all_missing_day_counted (rows : List Row) (k : String × Int × Nat × Nat)
    (hocc : ∃ r ∈ rows, stationDate r = k)
    (hall : ∀ r ∈ rows, stationDate r = k → r.pm25 = none) :
    (k, (none : Option ℚ)) ∈ daily_data rows ∧
    categorize_pm25 none = "Very Unhealthy" ∧
    ∃ n, ("Very Unhealthy", some n) ∈ dist rows ∧ 0 < n := by
  have hknil : ((rows.filter fun r => stationDate r = k).filterMap Row.pm25) = [] := by
    rw [List.filterMap_eq_nil_iff]
    intro r hr
    have hrr := List.mem_filter.mp hr
    exact hall r hrr.1 (of_decide_eq_true hrr.2)
  obtain ⟨r0, hr0, hk0⟩ := hocc
  have hkmem : k ∈ List.insertionSort sdBefore ((rows.map stationDate).dedup) :=
    (List.mem_insertionSort sdBefore).mpr (List.mem_dedup.mpr
      (List.mem_map.mpr ⟨r0, hr0, hk0⟩))
  have hdd : (k, (none : Option ℚ)) ∈ daily_data rows := by
    unfold daily_data
    refine List.mem_map.mpr ⟨k, hkmem, ?_⟩
    rw [hknil]
    rfl
  have hvu : "Very Unhealthy" ∈ daily_categories rows := by
    unfold daily_categories
    exact List.mem_map.mpr ⟨(k, none), hdd, rfl⟩
  have hcnt : 0 < (daily_categories rows).count "Very Unhealthy" :=
    List.count_pos_iff.mpr hvu
  refine ⟨hdd, rfl, (daily_categories rows).count "Very Unhealthy", ?_, hcnt⟩
  unfold dist
  refine List.mem_map.mpr ⟨"Very Unhealthy", by simp [categoryOrder], ?_⟩
  rw [if_neg (Nat.pos_iff_ne_zero.mp hcnt)]

/-- Witness for C10 at the one-missing-row table: station A's all-missing
day 2014-01-01 appears in `daily_data` with a missing mean. -/
theorem C10_all_missing_day_counted_witness :
    (("A", (2014 : Int), 1, 1), (none : Option ℚ)) ∈ daily_data exMissing :=
  (C10_all_missing_day_counted exMissing ("A", 2014, 1, 1) (by decide) (by decide)).1

/-- The ranking order `top5` does guarantee: an entry with a weakly higher
mean first, entries with missing means last; nothing about the relative
order of exact ties or of the missing-mean entries among themselves. -/
def rankedWeakBefore (a b : String × Option ℚ) : Prop :=
  match a.2, b.2 with
  | some x, some y => y ≤ x
  | some _, none => True
  | none, some _ => False
  | none, none => True

/-- An entry with a mean ranks before one without. -/
theorem rankedWeakBefore_of_some_none {a b : String × Option ℚ}
    (ha : a.2.isSome) (hb : b.2.isNone) : rankedWeakBefore a b := by
  obtain ⟨n, a2⟩ := a
  obtain ⟨m, b2⟩ := b
  cases a2 with
  | none => simp at ha
  | some x =>
    cases b2 with
    | some y => simp at hb
    | none => trivial

/-- Two entries without means are unconstrained. -/
theorem rankedWeakBefore_of_none_none {a b : String × Option ℚ}
    (ha : a.2.isNone) (hb : b.2.isNone) : rankedWeakBefore a b := by
  obtain ⟨n, a2⟩ := a
  obtain ⟨m, b2⟩ := b
  cases a2 with
  | some x => simp at ha
  | none =>
    cases b2 with
    | some y => simp at hb
    | none => trivial

/-- On entries that both carry means, the sort guarantee gives the ranking
order. -/
theorem rankedWeakBefore_of_meanDescLe {a b : String × Option ℚ}
    (ha : a.2.isSome) (hb : b.2.isSome) (h : meanDescLe a b) : rankedWeakBefore a b := by
  obtain ⟨n, a2⟩ := a
  obtain ⟨m, b2⟩ := b
  cases a2 with
  | none => simp at ha
  | some x =>
    cases b2 with
    | none => simp at hb
    | some y => exact h

/-- Every list is pairwise related by the trivial relation. -/
theorem pairwise_trivial {α : Type} (l : List α) : l.Pairwise fun _ _ => True := by
  induction l with
  | nil => exact List.Pairwise.nil
  | cons a t ih => exact List.Pairwise.cons (fun _ _ => trivial) ih

/-- A two-row table with two stations A and B whose single observations
are exactly equal, so their station means tie exactly. -/
def exC3 : List Row :=
  [⟨"A", 2014, 1, 1, 0, 0, some 10⟩, ⟨"B", 2014, 1, 1, 0, 0, some 10⟩]

/-- An admissible `top5` output on `exC3` that lists the tied stations
with the lexicographically later name first. -/
def exC3Result : List (String × Option ℚ) :=
  [("B", meanOpt [10]), ("A", meanOpt [10])]

/-- Counterexample to C3 as stated: on the two-station table `exC3` whose
station means tie exactly, the output listing B before A is an admissible
result of `top5` — `sort_values` runs the default `'quicksort'`, which is
not stable, so the order of exact ties is unspecified — yet "A" is the
lexicographically earlier name.  The program therefore does not guarantee
that the lexicographically earlier station appears first on ties. -/
theorem C3_top5_counterexample :
    IsTop5 exC3 exC3Result ∧
    exC3Result.map Prod.fst = ["B", "A"] ∧
    exC3Result.map Prod.snd = [meanOpt [10], meanOpt [10]] ∧
    strLt "A" "B" := by
  refine ⟨?_, rfl, rfl, by decide⟩
  refine ⟨exC3Result, ⟨exC3Result, ?_, ?_, ?_⟩, rfl⟩
  · exact List.Perm.swap ("A", meanOpt [10]) ("B", meanOpt [10]) []
  · refine List.Pairwise.cons ?_ (List.pairwise_singleton _ _)
    intro c hc
    rcases List.mem_singleton.mp hc with rfl
    exact le_refl _
  · exact (List.append_nil _).symm

/-- C3 as amended: any admissible `top5` result lists min(5, number of
stations) entries of the per-station mean table, sorted with weakly higher
means first and missing means last, and every omitted station ranks no
better than any listed one; with fewer than 5 stations all are returned.
The relative order of stations with exactly equal means is unspecified —
the source's `sort_values` uses the default unstable `'quicksort'` — so no
lexicographic tie-break is guaranteed. -/
theorem C3_amended_top5_ranking (rows : List Row) (result : List (String × Option ℚ))
    (h : IsTop5 rows result) :
    ((station_means rows).length = ((rows.map Row.station).toFinset).card) ∧
    (result.length = min 5 (station_means rows).length) ∧
    (∀ e ∈ result, e ∈ station_means rows) ∧
    result.Pairwise rankedWeakBefore ∧
    (∀ a ∈ station_means rows, a ∉ result → ∀ b ∈ result, rankedWeakBefore b a) := by
  obtain ⟨s, ⟨t, hperm, hpair, hs⟩, hres⟩ := h
  have htS : ∀ x ∈ t, x.2.isSome := fun x hx =>
    (List.mem_filter.mp (hperm.mem_iff.mp hx)).2
  have hperm2 : s.Perm (station_means rows) := by
    rw [hs]
    refine (hperm.append_right _).trans ?_
    have h2 : ((station_means rows).filter fun x => x.2.isNone) =
        (station_means rows).filter fun x => !x.2.isSome :=
      List.filter_congr fun x _ => by cases hx : x.2 <;> simp
    rw [h2]
    exact List.filter_append_perm _ _
  have hfull : s.Pairwise rankedWeakBefore := by
    rw [hs, List.pairwise_append]
    refine ⟨?_, ?_, ?_⟩
    · exact hpair.imp_of_mem fun hma hmb hd =>
        rankedWeakBefore_of_meanDescLe (htS _ hma) (htS _ hmb) hd
    · exact (pairwise_trivial _).imp_of_mem fun hma hmb _ =>
        rankedWeakBefore_of_none_none (List.mem_filter.mp hma).2 (List.mem_filter.mp hmb).2
    · intro a hma b hmb
      exact rankedWeakBefore_of_some_none (htS a hma) (List.mem_filter.mp hmb).2
  subst hres
  refine ⟨?_, ?_, ?_, ?_, ?_⟩
  · unfold station_means groupbyMean
    rw [List.length_map, List.length_insertionSort, List.card_toFinset]
  · rw [List.length_take, hperm2.length_eq]
  · exact fun e he => hperm2.mem_iff.mp (List.take_subset _ _ he)
  · exact hfull.sublist (List.take_sublist _ _)
  · intro a hma hnt b hmb
    have has : a ∈ s := hperm2.mem_iff.mpr hma
    rw [← List.take_append_drop 5 s] at has hfull
    have hdrop : a ∈ List.drop 5 s := by
      rcases List.mem_append.mp has with h1 | h1
      · exact absurd h1 hnt
      · exact h1
    exact (List.pairwise_append.mp hfull).2.2 b hmb a hdrop

/-- Witness for the amended C3: on the one-station table with a missing
value, the admissible output [("A", none)] draws its single entry from the
per-station mean table. -/
theorem C3_amended_top5_ranking_witness :
    ("A", (none : Option ℚ)) ∈ station_means exMissing :=
  (C3_amended_top5_ranking exMissing [("A", none)]
    ⟨[("A", none)], ⟨[], List.Perm.nil, List.Pairwise.nil, rfl⟩, rfl⟩).2.2.1
    ("A", none) (by decide)

end Dashboard
